import Mathlib

/-!
Shallow embedding of the x86 register-context subsystem of the runtime
(`runtime/arch/x86/context_x86.cc`): the register slot arrays, `Reset`,
the frame spill decoder `FillCalleeSaves`, the caller-save synthesizer
`SmashCallerSaves`, the mutators `SetGPR` / `SetFPR`, and the scratch-buffer
construction of `DoLongJump`, together with proofs of the specified
properties.
-/

namespace art

/-- Machine memory: a total map from addresses to stored machine words. -/
def Mem : Type := Nat → Nat

/-- Store word `v` at address `a`. -/
def setMem (m : Mem) (a v : Nat) : Mem := fun x => if x = a then v else m x

/-- A concrete all-zero memory, used to instantiate the theorems below. -/
def mem0 : Mem := fun _ => 0

namespace x86

/-- Number of x86 general-purpose registers.  Modelled from the spec: the
register enumeration lives in a header outside this file's source; the eight
architectural GPRs carry their standard x86 encodings. -/
def kNumberOfCpuRegisters : Nat := 8

def EAX : Nat := 0

def ECX : Nat := 1

def EDX : Nat := 2

def EBX : Nat := 3

def ESP : Nat := 4

def EBP : Nat := 5

def ESI : Nat := 6

def EDI : Nat := 7

/-- Number of word-sized floating-point slots.  Modelled from the spec: the
constant is declared in a header outside this file's source; the spec states
one slot per floating-point register *word*, with each of the eight XMM
registers represented as a pair of adjacent word-sized slots. -/
def kNumberOfFloatRegisters : Nat := 16

/-- Modelled from the spec: the fixed base of the out-of-range GPR debug
sentinels (`kBadGprBase` is declared in a header outside this file's
source). -/
def kBadGprBase : Nat := 0xebad6070

/-- Modelled from the spec: the fixed base of the out-of-range FPR debug
sentinels (`kBadFprBase` is declared in a header outside this file's
source). -/
def kBadFprBase : Nat := 0xebad8070

/-- An address a register slot can be bound to: a word of some walked stack
frame, the address of the context's internal `esp_` scalar, or the address of
the process-wide read-only constant `gZero`. -/
inductive Addr : Type where
  | stack : Nat → Addr
  | espScalar : Addr
  | zeroConst : Addr
deriving DecidableEq

/-- The x86 register context: slot arrays `gprs_` and `fprs_` (a slot is
`none` when unset, i.e. the source's null pointer) and the internal scalars
`esp_` and `eip_`.  The arrays are modelled as total maps; only indices below
`kNumberOfCpuRegisters` resp. `kNumberOfFloatRegisters` correspond to array
entries of the source. -/
structure X86Context where
  gprs_ : Nat → Option Addr
  fprs_ : Nat → Option Addr
  esp_ : Nat
  eip_ : Nat

/-- A concrete start context, used to instantiate the theorems below. -/
def initContext : X86Context := ⟨fun _ => none, fun _ => none, 0, 0⟩

/-- Read through a slot address: a stack word comes from memory, the internal
scalar address yields `esp_`, and the read-only constant `gZero` yields 0. -/
def derefAddr (c : X86Context) (m : Mem) : Addr → Nat
  | Addr.stack n => m n
  | Addr.espScalar => c.esp_
  | Addr.zeroConst => 0

/-- Write through a slot address: a stack word updates memory, the internal
scalar address updates `esp_`; the read-only constant is never written (the
mutators reject it before reaching this point). -/
def writeAddr (c : X86Context) (m : Mem) (a : Addr) (v : Nat) : X86Context × Mem :=
  match a with
  | Addr.stack n => (c, setMem m n v)
  | Addr.espScalar => ({ c with esp_ := v }, m)
  | Addr.zeroConst => (c, m)

/-- The logical value held by GPR `r`: `none` for an unset slot, otherwise the
word read through the bound address. -/
def gprValue (c : X86Context) (m : Mem) (r : Nat) : Option Nat :=
  (c.gprs_ r).map (derefAddr c m)

/-- Test of bit `i` of `mask`, as in the source's `((mask >> i) & 1) != 0`. -/
def bitSet (mask i : Nat) : Bool := ((mask >>> i) &&& 1) != 0

/-- Number of set bits of `mask` at positions below `n`. -/
def popcountBelow (mask n : Nat) : Nat :=
  (List.range n).countP (fun b => bitSet mask b)

/-- Number of set bits of a 32-bit mask (the source's `POPCOUNT` applied to a
`uint32_t` spill mask). -/
def POPCOUNT (mask : Nat) : Nat := popcountBelow mask 32

/-- Modelled from the spec: the compiled-method frame metadata the decoder
consumes — `CoreSpillMask`, `FpSpillMask`, `FrameSizeInBytes`
(`QuickMethodFrameInfo` is declared outside this file's source). -/
structure QuickMethodFrameInfo where
  CoreSpillMask : Nat
  FpSpillMask : Nat
  FrameSizeInBytes : Nat

/-- Modelled from the spec: a stack visitor is abstracted by its
`CalleeSaveAddress` function, mapping a spill-slot index counted from the
frame base (an integer: the source computes it by subtraction) and the frame
size to the address of that spill slot in the frame. -/
def StackVisitor : Type := Int → Nat → Nat

/-- Update one entry of a slot map. -/
def setSlot (g : Nat → Option Addr) (i : Nat) (a : Option Addr) :
    Nat → Option Addr :=
  fun n => if n = i then a else g n

/-- Run `step` at positions `0, 1, ..., n-1` in increasing order. -/
def iterUpTo {α : Type} (step : Nat → α → α) : Nat → α → α
  | 0, s => s
  | n + 1, s => step n (iterUpTo step n s)

/-- One iteration of the GPR loop of `FillCalleeSaves`: state is the counter
`j` and the slot map; a set mask bit binds `gprs_[i]` to
`CalleeSaveAddress(spill_count - j, frame_size)` and increments `j`. -/
def gprStep (mask spillCount fsize : Nat) (fr : StackVisitor) (i : Nat)
    (s : Nat × (Nat → Option Addr)) : Nat × (Nat → Option Addr) :=
  if bitSet mask i then
    (s.1 + 1,
     setSlot s.2 i
       (some (Addr.stack (fr ((spillCount : Int) - (s.1 : Int)) fsize))))
  else s

/-- One iteration of the FPR loop of `FillCalleeSaves`: a set mask bit binds
the two word slots `2*i` and `2*i + 1` to the consecutive spill positions
`spill_count + fp_spill_size_in_words - j` and the one below, then advances
`j` by two. -/
def fprStep (mask spillCount fpSpillCount fsize : Nat) (fr : StackVisitor)
    (i : Nat) (s : Nat × (Nat → Option Addr)) : Nat × (Nat → Option Addr) :=
  if bitSet mask i then
    (s.1 + 2,
     setSlot
       (setSlot s.2 (2 * i)
         (some (Addr.stack
           (fr ((spillCount : Int) + ((fpSpillCount * 2 : Nat) : Int) - (s.1 : Int))
             fsize))))
       (2 * i + 1)
       (some (Addr.stack
         (fr ((spillCount : Int) + ((fpSpillCount * 2 : Nat) : Int) - (s.1 : Int) - 1)
           fsize))))
  else s

/-- `X86Context::Reset`: clear every GPR slot, clear every FPR slot, rebind
the ESP slot to the internal `esp_` scalar, and store the debug sentinels
into `esp_` and `eip_`. -/
def X86Context.Reset (c : X86Context) : X86Context :=
  { c with
    gprs_ := fun i =>
      if i = ESP then some Addr.espScalar
      else if i < kNumberOfCpuRegisters then none
      else c.gprs_ i,
    fprs_ := fun i => if i < kNumberOfFloatRegisters then none else c.fprs_ i,
    esp_ := kBadGprBase + ESP,
    eip_ := kBadGprBase + kNumberOfCpuRegisters }

/-- `X86Context::FillCalleeSaves`: decode the core and FP spill masks of the
visited frame and bind the slots of the spilled registers to their spill
addresses; memory is neither read nor written. -/
def X86Context.FillCalleeSaves (c : X86Context) (m : Mem)
    (fi : QuickMethodFrameInfo) (fr : StackVisitor) : X86Context × Mem :=
  let spillCount := POPCOUNT fi.CoreSpillMask
  let fpSpillCount := POPCOUNT fi.FpSpillMask
  let gprs1 :=
    if 0 < spillCount then
      (iterUpTo (gprStep fi.CoreSpillMask spillCount fi.FrameSizeInBytes fr)
        kNumberOfCpuRegisters (2, c.gprs_)).2
    else c.gprs_
  let fprs1 :=
    if 0 < fpSpillCount then
      (iterUpTo (fprStep fi.FpSpillMask spillCount fpSpillCount
          fi.FrameSizeInBytes fr)
        kNumberOfFloatRegisters (2, c.fprs_)).2
    else c.fprs_
  ({ c with gprs_ := gprs1, fprs_ := fprs1 }, m)

/-- `X86Context::SmashCallerSaves`: bind EAX and EDX to the read-only zero
constant, clear ECX and EBX, and clear the whole FPR slot array. -/
def X86Context.SmashCallerSaves (c : X86Context) : X86Context :=
  { c with
    gprs_ :=
      setSlot
        (setSlot
          (setSlot (setSlot c.gprs_ EAX (some Addr.zeroConst))
            EDX (some Addr.zeroConst))
          ECX none)
        EBX none,
    fprs_ := fun i => if i < kNumberOfFloatRegisters then none else c.fprs_ i }

/-- Modelled from the spec: `IsAccessibleGPR` (declared in a header outside
this file's source) — the register's slot is bound to real storage. -/
def X86Context.IsAccessibleGPR (c : X86Context) (reg : Nat) : Bool :=
  (c.gprs_ reg).isSome

/-- Modelled from the spec: `IsAccessibleFPR` (declared in a header outside
this file's source) — the register's slot is bound to real storage. -/
def X86Context.IsAccessibleFPR (c : X86Context) (reg : Nat) : Bool :=
  (c.fprs_ reg).isSome

/-- Outcome of a mutator call: `fatal` is the aggressively-checked abort; on
abort the context and memory are the state at the failed check. -/
structure SetOutcome where
  fatal : Bool
  ctx : X86Context
  mem : Mem

/-- `X86Context::SetGPR`: range check, accessibility check, protected-zero
check, then the write through the slot reference. -/
def X86Context.SetGPR (c : X86Context) (m : Mem) (reg v : Nat) : SetOutcome :=
  if reg < kNumberOfCpuRegisters then
    if c.IsAccessibleGPR reg then
      match c.gprs_ reg with
      | some a =>
        if a = Addr.zeroConst then ⟨true, c, m⟩
        else
          let cm := writeAddr c m a v
          ⟨false, cm.1, cm.2⟩
      | none => ⟨true, c, m⟩
    else ⟨true, c, m⟩
  else ⟨true, c, m⟩

/-- `X86Context::SetFPR`: range check, accessibility check, protected-zero
check, then the write through the slot reference. -/
def X86Context.SetFPR (c : X86Context) (m : Mem) (reg v : Nat) : SetOutcome :=
  if reg < kNumberOfFloatRegisters then
    if c.IsAccessibleFPR reg then
      match c.fprs_ reg with
      | some a =>
        if a = Addr.zeroConst then ⟨true, c, m⟩
        else
          let cm := writeAddr c m a v
          ⟨false, cm.1, cm.2⟩
      | none => ⟨true, c, m⟩
    else ⟨true, c, m⟩
  else ⟨true, c, m⟩

/-- Subtraction of one machine word (4 bytes) on a 32-bit machine word. -/
def wordSub4 (v : Nat) : Nat := (v + (4294967296 - 4)) % 4294967296

/-- The state `DoLongJump` has built just before its register-restoring
machine-code sequence runs: the GPR scratch buffer (one slot per register
plus one for the stack pointer), the FPR scratch buffer, the synthetic stack
pointer, and memory after the return address has been stored at it. -/
structure LongJumpState where
  gprs : Nat → Nat
  fprs : Nat → Nat
  esp : Nat
  mem : Mem

/-- `X86Context::DoLongJump`, up to the final machine-code transfer: fill the
GPR buffer backward (entry `kNumberOfCpuRegisters - 1 - i` for register `i`)
with the dereferenced slot value or the debug sentinel `kBadGprBase + i`,
fill the FPR buffer likewise with `kBadFprBase + i` sentinels, compute the
synthetic stack pointer as the reconstructed ESP value minus one word, store
it in the extra buffer slot, and write `eip_` at that stack address. -/
def X86Context.DoLongJump (c : X86Context) (m : Mem) : LongJumpState :=
  let gprVal : Nat → Nat := fun i =>
    match c.gprs_ i with
    | some a => derefAddr c m a
    | none => kBadGprBase + i
  let fprVal : Nat → Nat := fun i =>
    match c.fprs_ i with
    | some a => derefAddr c m a
    | none => kBadFprBase + i
  let esp := wordSub4 (gprVal (kNumberOfCpuRegisters - 1 - (kNumberOfCpuRegisters - ESP - 1)))
  { gprs := fun idx =>
      if idx < kNumberOfCpuRegisters then gprVal (kNumberOfCpuRegisters - 1 - idx)
      else if idx = kNumberOfCpuRegisters then esp
      else 0,
    fprs := fun idx => if idx < kNumberOfFloatRegisters then fprVal idx else 0,
    esp := esp,
    mem := setMem m esp c.eip_ }

/-- Contexts reachable from `Reset` by the operations of the subsystem (a
mutator contributes the context at its termination, fatal or not). -/
inductive Reachable : X86Context → Prop where
  | reset (c : X86Context) : Reachable (X86Context.Reset c)
  | fill (c : X86Context) (m : Mem) (fi : QuickMethodFrameInfo)
      (fr : StackVisitor) :
      Reachable c → Reachable (X86Context.FillCalleeSaves c m fi fr).1
  | smash (c : X86Context) : Reachable c →
      Reachable (X86Context.SmashCallerSaves c)
  | setGpr (c : X86Context) (m : Mem) (reg v : Nat) :
      Reachable c → Reachable (X86Context.SetGPR c m reg v).ctx
  | setFpr (c : X86Context) (m : Mem) (reg v : Nat) :
      Reachable c → Reachable (X86Context.SetFPR c m reg v).ctx

end x86

end art

namespace art

namespace x86

/-- Auxiliary congruence: equal spill-slot indices give equal bindings. -/
theorem congrStack (fr : StackVisitor) (fsize : Nat) {A B : Int} (h : A = B) :
    some (Addr.stack (fr A fsize)) = some (Addr.stack (fr B fsize)) := by
  rw [h]

/-- Counting set bits below `n + 1` adds the test of bit `n`. -/
theorem popcountBelow_succ (mask n : Nat) :
    popcountBelow mask (n + 1) =
      popcountBelow mask n + (if bitSet mask n then 1 else 0) := by
  simp [popcountBelow, List.range_succ, List.countP_append, List.countP_cons]

/-- Invariant of the GPR loop of `FillCalleeSaves`: after scanning the first
`n` register indices the counter `j` is `2` plus the number of set bits seen,
and each scanned set-bit register is bound to the spill slot indexed by
`spill_count - j` at the time it was visited. -/
theorem gprFill_inv (mask spillCount fsize : Nat) (fr : StackVisitor)
    (g0 : Nat → Option Addr) (n : Nat) :
    (iterUpTo (gprStep mask spillCount fsize fr) n (2, g0)).1 =
      2 + popcountBelow mask n ∧
    ∀ i, (iterUpTo (gprStep mask spillCount fsize fr) n (2, g0)).2 i =
      if i < n ∧ bitSet mask i then
        some (Addr.stack
          (fr ((spillCount : Int) - ((2 + popcountBelow mask i : Nat) : Int))
            fsize))
      else g0 i := by
  induction n with
  | zero =>
    refine ⟨by simp [iterUpTo, popcountBelow], fun i => by simp [iterUpTo]⟩
  | succ n ih =>
    obtain ⟨ihj, ihg⟩ := ih
    by_cases hb : bitSet mask n
    · constructor
      · simp only [iterUpTo, gprStep, if_pos hb, ihj, popcountBelow_succ, hb,
          if_true]
        omega
      · intro i
        simp only [iterUpTo, gprStep, if_pos hb, ihj, setSlot]
        by_cases hi : i = n
        · subst hi
          rw [if_pos rfl, if_pos ⟨Nat.lt_succ_self i, hb⟩]
        · rw [if_neg hi, ihg i]
          have hiff : (i < n + 1 ∧ bitSet mask i) ↔ (i < n ∧ bitSet mask i) :=
            ⟨fun ⟨h1, h2⟩ => ⟨by omega, h2⟩, fun ⟨h1, h2⟩ => ⟨by omega, h2⟩⟩
          rw [if_congr hiff rfl rfl]
    · constructor
      · simp [iterUpTo, gprStep, hb, ihj, popcountBelow_succ]
      · intro i
        simp only [iterUpTo, gprStep, if_neg hb, ihg i]
        have hiff : (i < n + 1 ∧ bitSet mask i) ↔ (i < n ∧ bitSet mask i) := by
          constructor
          · rintro ⟨h1, h2⟩
            have : i ≠ n := fun he => hb (he ▸ h2)
            exact ⟨by omega, h2⟩
          · rintro ⟨h1, h2⟩
            exact ⟨by omega, h2⟩
        rw [if_congr hiff rfl rfl]

/-- Invariant of the FPR loop of `FillCalleeSaves`: after scanning the first
`n` float-register indices the counter `j` is `2` plus twice the number of
set bits seen, and each scanned set-bit register has its two word slots bound
to the consecutive spill positions determined by `j` at the time it was
visited. -/
theorem fprFill_inv (mask spillCount fpSpillCount fsize : Nat)
    (fr : StackVisitor) (f0 : Nat → Option Addr) (n : Nat) :
    (iterUpTo (fprStep mask spillCount fpSpillCount fsize fr) n (2, f0)).1 =
      2 + 2 * popcountBelow mask n ∧
    ∀ w,
      (iterUpTo (fprStep mask spillCount fpSpillCount fsize fr) n (2, f0)).2 w =
      if w / 2 < n ∧ bitSet mask (w / 2) then
        some (Addr.stack
          (fr ((spillCount : Int) + ((fpSpillCount * 2 : Nat) : Int)
              - ((2 + 2 * popcountBelow mask (w / 2) : Nat) : Int)
              - ((w % 2 : Nat) : Int)) fsize))
      else f0 w := by
  induction n with
  | zero =>
    refine ⟨by simp [iterUpTo, popcountBelow], fun w => by simp [iterUpTo]⟩
  | succ n ih =>
    obtain ⟨ihj, ihg⟩ := ih
    by_cases hb : bitSet mask n
    · constructor
      · simp [iterUpTo, fprStep, hb, ihj, popcountBelow_succ]
        omega
      · intro w
        simp only [iterUpTo, fprStep, if_pos hb, ihj, setSlot]
        by_cases hw1 : w = 2 * n + 1
        · subst hw1
          rw [if_pos rfl]
          rw [show (2 * n + 1) / 2 = n from by omega,
            show (2 * n + 1) % 2 = 1 from by omega,
            if_pos ⟨Nat.lt_succ_self n, hb⟩]
          exact congrStack fr fsize (by push_cast; ring)
        · by_cases hw0 : w = 2 * n
          · subst hw0
            rw [if_neg hw1, if_pos rfl]
            rw [show 2 * n / 2 = n from by omega,
              show 2 * n % 2 = 0 from by omega,
              if_pos ⟨Nat.lt_succ_self n, hb⟩]
            exact congrStack fr fsize (by push_cast; ring)
          · rw [if_neg hw1, if_neg hw0, ihg w]
            have hne : w / 2 ≠ n := by omega
            have hiff : (w / 2 < n + 1 ∧ bitSet mask (w / 2)) ↔
                (w / 2 < n ∧ bitSet mask (w / 2)) :=
              ⟨fun ⟨h1, h2⟩ => ⟨by omega, h2⟩, fun ⟨h1, h2⟩ => ⟨by omega, h2⟩⟩
            rw [if_congr hiff rfl rfl]
    · constructor
      · simp [iterUpTo, fprStep, hb, ihj, popcountBelow_succ]
      · intro w
        simp only [iterUpTo, fprStep, if_neg hb, ihg w]
        have hiff : (w / 2 < n + 1 ∧ bitSet mask (w / 2)) ↔
            (w / 2 < n ∧ bitSet mask (w / 2)) := by
          constructor
          · rintro ⟨h1, h2⟩
            have : w / 2 ≠ n := fun he => hb (he ▸ h2)
            exact ⟨by omega, h2⟩
          · rintro ⟨h1, h2⟩
            exact ⟨by omega, h2⟩
        rw [if_congr hiff rfl rfl]

/-- C1: for a frame whose GPR spill mask has `spill_count` set bits,
`FillCalleeSaves` binds the register carrying the k-th set bit (k counted
from 0, low to high — here `k = popcountBelow mask i`) to the spill slot at
position `spill_count - k - 2` from the frame base: the `(spill_count - k)`-th
position after skipping the two leading slots reserved for the frame's saved
return address, so the lowest-indexed spilled register sits farthest from the
frame's top. -/
theorem FillCalleeSaves_gpr_ordering (c : X86Context) (m : Mem)
    (fi : QuickMethodFrameInfo) (fr : StackVisitor) (i : Nat)
    (hi : i < kNumberOfCpuRegisters) (hb : bitSet fi.CoreSpillMask i = true) :
    ((X86Context.FillCalleeSaves c m fi fr).1).gprs_ i =
      some (Addr.stack
        (fr ((POPCOUNT fi.CoreSpillMask : Int)
            - (popcountBelow fi.CoreSpillMask i : Int) - 2)
          fi.FrameSizeInBytes)) := by
  have hpos : 0 < POPCOUNT fi.CoreSpillMask := by
    have hmem : i ∈ List.range 32 := List.mem_range.mpr (by
      have := hi
      unfold kNumberOfCpuRegisters at this
      omega)
    exact List.countP_pos_iff.mpr ⟨i, hmem, by simpa using hb⟩
  simp only [X86Context.FillCalleeSaves]
  rw [if_pos hpos,
    (gprFill_inv fi.CoreSpillMask (POPCOUNT fi.CoreSpillMask)
      fi.FrameSizeInBytes fr c.gprs_ kNumberOfCpuRegisters).2 i,
    if_pos ⟨hi, hb⟩]
  exact congrStack fr fi.FrameSizeInBytes (by push_cast; ring)

/-- Closed instance of `FillCalleeSaves_gpr_ordering`: mask `278` has set
bits `{1, 2, 4, 8}`, so `spill_count = 4`; register 2 carries set bit
`k = 1` and is bound to spill position `4 - 1 - 2 = 1`, i.e. address
`1 + 32 = 33` under the chosen visitor. -/
theorem FillCalleeSaves_gpr_ordering_w :
    ((X86Context.FillCalleeSaves initContext mem0
        ⟨278, 0, 32⟩ (fun idx fsize => idx.toNat + fsize)).1).gprs_ 2 =
      some (Addr.stack 33) := by
  have h := FillCalleeSaves_gpr_ordering initContext mem0 ⟨278, 0, 32⟩
    (fun idx fsize => idx.toNat + fsize) 2 (by decide) (by decide)
  rw [h]
  decide

/-- C6: for a frame whose FP spill mask has a set bit for logical FP register
`i`, `FillCalleeSaves` binds the adjacent word slots `2*i` and `2*i + 1` to
two consecutive spill positions, following the same farthest-from-top
ordering rule as the GPRs (`k = popcountBelow mask i`, each logical register
consuming two positions) and offset by the GPR spill region size
`spill_count`. -/
theorem FillCalleeSaves_fpr_ordering (c : X86Context) (m : Mem)
    (fi : QuickMethodFrameInfo) (fr : StackVisitor) (i : Nat)
    (hi : i < kNumberOfFloatRegisters) (hb : bitSet fi.FpSpillMask i = true) :
    ((X86Context.FillCalleeSaves c m fi fr).1).fprs_ (2 * i) =
      some (Addr.stack
        (fr ((POPCOUNT fi.CoreSpillMask : Int)
            + (POPCOUNT fi.FpSpillMask : Int) * 2
            - (popcountBelow fi.FpSpillMask i : Int) * 2 - 2)
          fi.FrameSizeInBytes)) ∧
    ((X86Context.FillCalleeSaves c m fi fr).1).fprs_ (2 * i + 1) =
      some (Addr.stack
        (fr ((POPCOUNT fi.CoreSpillMask : Int)
            + (POPCOUNT fi.FpSpillMask : Int) * 2
            - (popcountBelow fi.FpSpillMask i : Int) * 2 - 2 - 1)
          fi.FrameSizeInBytes)) := by
  have hpos : 0 < POPCOUNT fi.FpSpillMask := by
    have hmem : i ∈ List.range 32 := List.mem_range.mpr (by
      have := hi
      unfold kNumberOfFloatRegisters at this
      omega)
    exact List.countP_pos_iff.mpr ⟨i, hmem, by simpa using hb⟩
  constructor
  · simp only [X86Context.FillCalleeSaves]
    rw [if_pos hpos,
      (fprFill_inv fi.FpSpillMask (POPCOUNT fi.CoreSpillMask)
        (POPCOUNT fi.FpSpillMask) fi.FrameSizeInBytes fr c.fprs_
        kNumberOfFloatRegisters).2 (2 * i),
      show 2 * i / 2 = i from by omega,
      show 2 * i % 2 = 0 from by omega,
      if_pos ⟨hi, hb⟩]
    exact congrStack fr fi.FrameSizeInBytes (by push_cast; ring)
  · simp only [X86Context.FillCalleeSaves]
    rw [if_pos hpos,
      (fprFill_inv fi.FpSpillMask (POPCOUNT fi.CoreSpillMask)
        (POPCOUNT fi.FpSpillMask) fi.FrameSizeInBytes fr c.fprs_
        kNumberOfFloatRegisters).2 (2 * i + 1),
      show (2 * i + 1) / 2 = i from by omega,
      show (2 * i + 1) % 2 = 1 from by omega,
      if_pos ⟨hi, hb⟩]
    exact congrStack fr fi.FrameSizeInBytes (by push_cast; ring)

/-- Closed instance of `FillCalleeSaves_fpr_ordering`: core mask `278` gives
`spill_count = 4`; FP mask `5` has set bits `{0, 2}` so `fp_spill_count = 2`;
register 2 carries set bit `k = 1`, so slots `4` and `5` are bound to spill
positions `4 + 4 - 2 - 2 = 4` and `3`, i.e. addresses `36` and `35`. -/
theorem FillCalleeSaves_fpr_ordering_w :
    ((X86Context.FillCalleeSaves initContext mem0
        ⟨278, 5, 32⟩ (fun idx fsize => idx.toNat + fsize)).1).fprs_ 4 =
      some (Addr.stack 36) ∧
    ((X86Context.FillCalleeSaves initContext mem0
        ⟨278, 5, 32⟩ (fun idx fsize => idx.toNat + fsize)).1).fprs_ 5 =
      some (Addr.stack 35) := by
  have h := FillCalleeSaves_fpr_ordering initContext mem0 ⟨278, 5, 32⟩
    (fun idx fsize => idx.toNat + fsize) 2 (by decide) (by decide)
  obtain ⟨h0, h1⟩ := h
  refine ⟨?_, ?_⟩
  · rw [show (4 : Nat) = 2 * 2 from rfl, h0]
    decide
  · rw [show (5 : Nat) = 2 * 2 + 1 from rfl, h1]
    decide

/-- C7: `FillCalleeSaves` leaves every register whose spill-mask bit is clear
with exactly the binding it had before the call, and it mutates only slot
bindings: the internal scalars are untouched and memory is neither read nor
written. -/
theorem FillCalleeSaves_preserves (c : X86Context) (m : Mem)
    (fi : QuickMethodFrameInfo) (fr : StackVisitor) :
    (∀ i, bitSet fi.CoreSpillMask i = false →
      ((X86Context.FillCalleeSaves c m fi fr).1).gprs_ i = c.gprs_ i) ∧
    (∀ i, bitSet fi.FpSpillMask i = false →
      ((X86Context.FillCalleeSaves c m fi fr).1).fprs_ (2 * i) =
          c.fprs_ (2 * i) ∧
        ((X86Context.FillCalleeSaves c m fi fr).1).fprs_ (2 * i + 1) =
          c.fprs_ (2 * i + 1)) ∧
    ((X86Context.FillCalleeSaves c m fi fr).1).esp_ = c.esp_ ∧
    ((X86Context.FillCalleeSaves c m fi fr).1).eip_ = c.eip_ ∧
    (X86Context.FillCalleeSaves c m fi fr).2 = m := by
  refine ⟨?_, ?_, ?_, ?_, ?_⟩
  · intro i hbit
    simp only [X86Context.FillCalleeSaves]
    by_cases hp : 0 < POPCOUNT fi.CoreSpillMask
    · rw [if_pos hp,
        (gprFill_inv fi.CoreSpillMask (POPCOUNT fi.CoreSpillMask)
          fi.FrameSizeInBytes fr c.gprs_ kNumberOfCpuRegisters).2 i,
        if_neg (by simp [hbit])]
    · rw [if_neg hp]
  · intro i hbit
    constructor
    · simp only [X86Context.FillCalleeSaves]
      by_cases hp : 0 < POPCOUNT fi.FpSpillMask
      · rw [if_pos hp,
          (fprFill_inv fi.FpSpillMask (POPCOUNT fi.CoreSpillMask)
            (POPCOUNT fi.FpSpillMask) fi.FrameSizeInBytes fr c.fprs_
            kNumberOfFloatRegisters).2 (2 * i),
          show 2 * i / 2 = i from by omega,
          if_neg (by simp [hbit])]
      · rw [if_neg hp]
    · simp only [X86Context.FillCalleeSaves]
      by_cases hp : 0 < POPCOUNT fi.FpSpillMask
      · rw [if_pos hp,
          (fprFill_inv fi.FpSpillMask (POPCOUNT fi.CoreSpillMask)
            (POPCOUNT fi.FpSpillMask) fi.FrameSizeInBytes fr c.fprs_
            kNumberOfFloatRegisters).2 (2 * i + 1),
          show (2 * i + 1) / 2 = i from by omega,
          if_neg (by simp [hbit])]
      · rw [if_neg hp]
  · simp only [X86Context.FillCalleeSaves]
  · simp only [X86Context.FillCalleeSaves]
  · simp only [X86Context.FillCalleeSaves]

/-- Closed instance of `FillCalleeSaves_preserves`: bit 0 of mask `278` is
clear, so register 0 keeps its prior (unset) binding, and memory and the
scalars are untouched. -/
theorem FillCalleeSaves_preserves_w :
    ((X86Context.FillCalleeSaves initContext mem0
        ⟨278, 5, 32⟩ (fun idx fsize => idx.toNat + fsize)).1).gprs_ 0 =
      initContext.gprs_ 0 ∧
    ((X86Context.FillCalleeSaves initContext mem0
        ⟨278, 5, 32⟩ (fun idx fsize => idx.toNat + fsize)).1).esp_ =
      initContext.esp_ := by
  have h := FillCalleeSaves_preserves initContext mem0 ⟨278, 5, 32⟩
    (fun idx fsize => idx.toNat + fsize)
  exact ⟨h.1 0 (by decide), h.2.2.1⟩

/-- C4: after `Reset`, every GPR slot except ESP is unset, every FPR slot is
unset, the ESP slot is rebound to the internal `esp_` scalar, and the
`esp_` and `eip_` scalars hold the out-of-range debug sentinels
`kBadGprBase + ESP` and `kBadGprBase + kNumberOfCpuRegisters`. -/
theorem Reset_state (c : X86Context) :
    (X86Context.Reset c).gprs_ ESP = some Addr.espScalar ∧
    (∀ i, i < kNumberOfCpuRegisters → i ≠ ESP →
      (X86Context.Reset c).gprs_ i = none) ∧
    (∀ i, i < kNumberOfFloatRegisters → (X86Context.Reset c).fprs_ i = none) ∧
    (X86Context.Reset c).esp_ = kBadGprBase + ESP ∧
    (X86Context.Reset c).eip_ = kBadGprBase + kNumberOfCpuRegisters := by
  refine ⟨?_, ?_, ?_, rfl, rfl⟩
  · simp [X86Context.Reset]
  · intro i h1 h2
    simp [X86Context.Reset, h1, h2]
  · intro i h1
    simp [X86Context.Reset, h1]

/-- Closed instance of `Reset_state`: after `Reset`, register 0 (EAX) is
unset and FPR slot 0 is unset. -/
theorem Reset_state_w :
    (X86Context.Reset initContext).gprs_ 0 = none ∧
    (X86Context.Reset initContext).fprs_ 0 = none :=
  ⟨(Reset_state initContext).2.1 0 (by decide) (by decide),
   (Reset_state initContext).2.2.1 0 (by decide)⟩

/-- C5: after `SmashCallerSaves`, the integer-result registers EAX and EDX
are bound to the process-wide read-only zero constant (so dereferencing them
yields 0), the other caller-saved GPRs ECX and EBX are unset, and every FPR
slot is unset. -/
theorem SmashCallerSaves_state (c : X86Context) (m : Mem) :
    (X86Context.SmashCallerSaves c).gprs_ EAX = some Addr.zeroConst ∧
    (X86Context.SmashCallerSaves c).gprs_ EDX = some Addr.zeroConst ∧
    gprValue (X86Context.SmashCallerSaves c) m EAX = some 0 ∧
    gprValue (X86Context.SmashCallerSaves c) m EDX = some 0 ∧
    (X86Context.SmashCallerSaves c).gprs_ ECX = none ∧
    (X86Context.SmashCallerSaves c).gprs_ EBX = none ∧
    (∀ i, i < kNumberOfFloatRegisters →
      (X86Context.SmashCallerSaves c).fprs_ i = none) := by
  refine ⟨?_, ?_, ?_, ?_, ?_, ?_, ?_⟩
  · simp [X86Context.SmashCallerSaves, setSlot, EAX, EDX, ECX, EBX]
  · simp [X86Context.SmashCallerSaves, setSlot, EAX, EDX, ECX, EBX]
  · simp [X86Context.SmashCallerSaves, gprValue, derefAddr, setSlot,
      EAX, EDX, ECX, EBX]
  · simp [X86Context.SmashCallerSaves, gprValue, derefAddr, setSlot,
      EAX, EDX, ECX, EBX]
  · simp [X86Context.SmashCallerSaves, setSlot, EAX, EDX, ECX, EBX]
  · simp [X86Context.SmashCallerSaves, setSlot, EAX, EDX, ECX, EBX]
  · intro i h1
    simp [X86Context.SmashCallerSaves, h1]

/-- Closed instance of `SmashCallerSaves_state`: after smashing, EAX
dereferences to 0 and FPR slot 3 is unset. -/
theorem SmashCallerSaves_state_w :
    gprValue (X86Context.SmashCallerSaves initContext) mem0 EAX = some 0 ∧
    (X86Context.SmashCallerSaves initContext).fprs_ 3 = none :=
  ⟨(SmashCallerSaves_state initContext mem0).2.2.1,
   (SmashCallerSaves_state initContext mem0).2.2.2.2.2.2 3 (by decide)⟩

/-- C9: `SmashCallerSaves` leaves the ESP, EBP, ESI and EDI slot bindings and
the `esp_` and `eip_` scalars exactly as they were before the call. -/
theorem SmashCallerSaves_preserves (c : X86Context) :
    (X86Context.SmashCallerSaves c).gprs_ ESP = c.gprs_ ESP ∧
    (X86Context.SmashCallerSaves c).gprs_ EBP = c.gprs_ EBP ∧
    (X86Context.SmashCallerSaves c).gprs_ ESI = c.gprs_ ESI ∧
    (X86Context.SmashCallerSaves c).gprs_ EDI = c.gprs_ EDI ∧
    (X86Context.SmashCallerSaves c).esp_ = c.esp_ ∧
    (X86Context.SmashCallerSaves c).eip_ = c.eip_ := by
  refine ⟨?_, ?_, ?_, ?_, rfl, rfl⟩ <;>
    simp [X86Context.SmashCallerSaves, setSlot,
      EAX, EDX, ECX, EBX, ESP, EBP, ESI, EDI]

/-- C2: `SetGPR` is fatal when the register index is out of range, fatal when
the slot is unbound, fatal when the slot is bound to the protected zero
constant, and otherwise writes the value through the slot reference so that
it is observable by reading the referenced word; likewise `SetFPR`. -/
theorem SetGPR_SetFPR_contract (c : X86Context) (m : Mem) (reg v : Nat) :
    (kNumberOfCpuRegisters ≤ reg →
      (X86Context.SetGPR c m reg v).fatal = true) ∧
    (c.gprs_ reg = none → (X86Context.SetGPR c m reg v).fatal = true) ∧
    (c.gprs_ reg = some Addr.zeroConst →
      (X86Context.SetGPR c m reg v).fatal = true) ∧
    (∀ a, reg < kNumberOfCpuRegisters → c.gprs_ reg = some a →
      a ≠ Addr.zeroConst →
      (X86Context.SetGPR c m reg v).fatal = false ∧
      derefAddr (X86Context.SetGPR c m reg v).ctx
        (X86Context.SetGPR c m reg v).mem a = v) ∧
    (kNumberOfFloatRegisters ≤ reg →
      (X86Context.SetFPR c m reg v).fatal = true) ∧
    (c.fprs_ reg = none → (X86Context.SetFPR c m reg v).fatal = true) ∧
    (c.fprs_ reg = some Addr.zeroConst →
      (X86Context.SetFPR c m reg v).fatal = true) ∧
    (∀ a, reg < kNumberOfFloatRegisters → c.fprs_ reg = some a →
      a ≠ Addr.zeroConst →
      (X86Context.SetFPR c m reg v).fatal = false ∧
      derefAddr (X86Context.SetFPR c m reg v).ctx
        (X86Context.SetFPR c m reg v).mem a = v) := by
  refine ⟨?_, ?_, ?_, ?_, ?_, ?_, ?_, ?_⟩
  · intro h
    simp [X86Context.SetGPR, Nat.not_lt.mpr h]
  · intro h
    by_cases hr : reg < kNumberOfCpuRegisters
    · simp [X86Context.SetGPR, hr, X86Context.IsAccessibleGPR, h]
    · simp [X86Context.SetGPR, hr]
  · intro h
    by_cases hr : reg < kNumberOfCpuRegisters
    · simp [X86Context.SetGPR, hr, X86Context.IsAccessibleGPR, h]
    · simp [X86Context.SetGPR, hr]
  · intro a hr ha hne
    cases a with
    | stack n =>
      simp [X86Context.SetGPR, hr, X86Context.IsAccessibleGPR, ha,
        writeAddr, derefAddr, setMem]
    | espScalar =>
      simp [X86Context.SetGPR, hr, X86Context.IsAccessibleGPR, ha,
        writeAddr, derefAddr]
    | zeroConst => exact absurd rfl hne
  · intro h
    simp [X86Context.SetFPR, Nat.not_lt.mpr h]
  · intro h
    by_cases hr : reg < kNumberOfFloatRegisters
    · simp [X86Context.SetFPR, hr, X86Context.IsAccessibleFPR, h]
    · simp [X86Context.SetFPR, hr]
  · intro h
    by_cases hr : reg < kNumberOfFloatRegisters
    · simp [X86Context.SetFPR, hr, X86Context.IsAccessibleFPR, h]
    · simp [X86Context.SetFPR, hr]
  · intro a hr ha hne
    cases a with
    | stack n =>
      simp [X86Context.SetFPR, hr, X86Context.IsAccessibleFPR, ha,
        writeAddr, derefAddr, setMem]
    | espScalar =>
      simp [X86Context.SetFPR, hr, X86Context.IsAccessibleFPR, ha,
        writeAddr, derefAddr]
    | zeroConst => exact absurd rfl hne

/-- Closed instance of `SetGPR_SetFPR_contract`: after `Reset`, ESP is bound
to the internal scalar, so `SetGPR(ESP, 77)` succeeds and the value is
observable through the referenced word. -/
theorem SetGPR_SetFPR_contract_w :
    (X86Context.SetGPR (X86Context.Reset initContext) mem0 4 77).fatal =
      false ∧
    derefAddr (X86Context.SetGPR (X86Context.Reset initContext) mem0 4 77).ctx
      (X86Context.SetGPR (X86Context.Reset initContext) mem0 4 77).mem
      Addr.espScalar = 77 :=
  (SetGPR_SetFPR_contract (X86Context.Reset initContext) mem0 4 77).2.2.2.1
    Addr.espScalar (by decide) (by decide) (by decide)

/-- C10: when `SetGPR` or `SetFPR` terminates fatally, the context and the
memory are exactly the input state — every check precedes the write. -/
theorem SetGPR_SetFPR_fatal_nochange (c : X86Context) (m : Mem)
    (reg v : Nat) :
    ((X86Context.SetGPR c m reg v).fatal = true →
      (X86Context.SetGPR c m reg v).ctx = c ∧
      (X86Context.SetGPR c m reg v).mem = m) ∧
    ((X86Context.SetFPR c m reg v).fatal = true →
      (X86Context.SetFPR c m reg v).ctx = c ∧
      (X86Context.SetFPR c m reg v).mem = m) := by
  constructor
  · intro hf
    by_cases hr : reg < kNumberOfCpuRegisters
    · cases hslot : c.gprs_ reg with
      | none =>
        constructor <;>
          simp [X86Context.SetGPR, hr, X86Context.IsAccessibleGPR, hslot]
      | some a =>
        by_cases hz : a = Addr.zeroConst
        · subst hz
          constructor <;>
            simp [X86Context.SetGPR, hr, X86Context.IsAccessibleGPR, hslot]
        · exfalso
          simp [X86Context.SetGPR, hr, X86Context.IsAccessibleGPR, hslot,
            hz] at hf
    · constructor <;> simp [X86Context.SetGPR, hr]
  · intro hf
    by_cases hr : reg < kNumberOfFloatRegisters
    · cases hslot : c.fprs_ reg with
      | none =>
        constructor <;>
          simp [X86Context.SetFPR, hr, X86Context.IsAccessibleFPR, hslot]
      | some a =>
        by_cases hz : a = Addr.zeroConst
        · subst hz
          constructor <;>
            simp [X86Context.SetFPR, hr, X86Context.IsAccessibleFPR, hslot]
        · exfalso
          simp [X86Context.SetFPR, hr, X86Context.IsAccessibleFPR, hslot,
            hz] at hf
    · constructor <;> simp [X86Context.SetFPR, hr]

/-- Closed instance of `SetGPR_SetFPR_fatal_nochange`: register index 9 is
out of range, the call is fatal, and context and memory are unchanged. -/
theorem SetGPR_SetFPR_fatal_nochange_w :
    (X86Context.SetGPR initContext mem0 9 5).ctx = initContext ∧
    (X86Context.SetGPR initContext mem0 9 5).mem = mem0 :=
  (SetGPR_SetFPR_fatal_nochange initContext mem0 9 5).1 (by decide)

/-- C3: `DoLongJump` builds the GPR scratch buffer so that entry
`kNumberOfCpuRegisters - 1 - i` holds register `i`'s dereferenced slot value
when bound and the debug sentinel `kBadGprBase + i` when unbound; the extra
entry at index `kNumberOfCpuRegisters` holds the synthetic stack pointer,
which is the buffer's reconstructed ESP value minus one machine word; and the
stored return address `eip_` is written to that synthetic stack address. -/
theorem DoLongJump_state (c : X86Context) (m : Mem) :
    (∀ i, i < kNumberOfCpuRegisters →
      (X86Context.DoLongJump c m).gprs (kNumberOfCpuRegisters - 1 - i) =
        (match c.gprs_ i with
         | some a => derefAddr c m a
         | none => kBadGprBase + i)) ∧
    (X86Context.DoLongJump c m).gprs kNumberOfCpuRegisters =
      (X86Context.DoLongJump c m).esp ∧
    (X86Context.DoLongJump c m).esp =
      wordSub4 ((X86Context.DoLongJump c m).gprs
        (kNumberOfCpuRegisters - ESP - 1)) ∧
    (X86Context.DoLongJump c m).mem (X86Context.DoLongJump c m).esp =
      c.eip_ := by
  refine ⟨?_, ?_, ?_, ?_⟩
  · intro i hi
    have hidx : kNumberOfCpuRegisters - 1 - (kNumberOfCpuRegisters - 1 - i) =
        i := by
      unfold kNumberOfCpuRegisters at hi ⊢
      omega
    simp only [X86Context.DoLongJump]
    rw [if_pos (by unfold kNumberOfCpuRegisters at hi ⊢ ; omega), hidx]
  · simp [X86Context.DoLongJump]
  · simp [X86Context.DoLongJump, kNumberOfCpuRegisters, ESP]
  · simp [X86Context.DoLongJump, setMem]

/-- Closed instance of `DoLongJump_state`: after `Reset`, register 0 is
unbound, so buffer entry 7 holds the debug sentinel `kBadGprBase + 0`. -/
theorem DoLongJump_state_w :
    (X86Context.DoLongJump (X86Context.Reset initContext) mem0).gprs 7 =
      kBadGprBase + 0 := by
  have h := (DoLongJump_state (X86Context.Reset initContext) mem0).1 0
    (by decide)
  simpa [X86Context.Reset, ESP, kNumberOfCpuRegisters] using h

/-- The mutator `SetGPR` never changes any slot binding. -/
theorem SetGPR_ctx_gprs (c : X86Context) (m : Mem) (reg v : Nat) :
    ((X86Context.SetGPR c m reg v).ctx).gprs_ = c.gprs_ := by
  by_cases hr : reg < kNumberOfCpuRegisters
  · cases hslot : c.gprs_ reg with
    | none => simp [X86Context.SetGPR, hr, X86Context.IsAccessibleGPR, hslot]
    | some a =>
      cases a <;>
        simp [X86Context.SetGPR, hr, X86Context.IsAccessibleGPR, hslot,
          writeAddr]
  · simp [X86Context.SetGPR, hr]

/-- The mutator `SetFPR` never changes any GPR slot binding. -/
theorem SetFPR_ctx_gprs (c : X86Context) (m : Mem) (reg v : Nat) :
    ((X86Context.SetFPR c m reg v).ctx).gprs_ = c.gprs_ := by
  by_cases hr : reg < kNumberOfFloatRegisters
  · cases hslot : c.fprs_ reg with
    | none => simp [X86Context.SetFPR, hr, X86Context.IsAccessibleFPR, hslot]
    | some a =>
      cases a <;>
        simp [X86Context.SetFPR, hr, X86Context.IsAccessibleFPR, hslot,
          writeAddr]
  · simp [X86Context.SetFPR, hr]

/-- C8: in every context reachable from `Reset` by `FillCalleeSaves`,
`SmashCallerSaves`, `SetGPR` and `SetFPR` calls, the ESP slot is bound, while
after `Reset` every other slot is unset (slots become bound only by explicit
population). -/
theorem reachable_esp_bound (c c0 : X86Context) (h : Reachable c) :
    (c.gprs_ ESP).isSome = true ∧
    (∀ i, i < kNumberOfCpuRegisters → i ≠ ESP →
      (X86Context.Reset c0).gprs_ i = none) ∧
    (∀ i, i < kNumberOfFloatRegisters →
      (X86Context.Reset c0).fprs_ i = none) := by
  refine ⟨?_, ?_, ?_⟩
  · induction h with
    | reset c1 => simp [X86Context.Reset]
    | fill c1 m fi fr h ih =>
      simp only [X86Context.FillCalleeSaves]
      by_cases hp : 0 < POPCOUNT fi.CoreSpillMask
      · rw [if_pos hp,
          (gprFill_inv fi.CoreSpillMask (POPCOUNT fi.CoreSpillMask)
            fi.FrameSizeInBytes fr c1.gprs_ kNumberOfCpuRegisters).2 ESP]
        by_cases hbit : bitSet fi.CoreSpillMask ESP
        · rw [if_pos ⟨by decide, hbit⟩]
          rfl
        · rw [if_neg (by simp [hbit])]
          exact ih
      · rw [if_neg hp]
        exact ih
    | smash c1 h ih =>
      simpa [X86Context.SmashCallerSaves, setSlot,
        EAX, EDX, ECX, EBX, ESP] using ih
    | setGpr c1 m reg v h ih =>
      rw [SetGPR_ctx_gprs]
      exact ih
    | setFpr c1 m reg v h ih =>
      rw [SetFPR_ctx_gprs]
      exact ih
  · intro i h1 h2
    simp [X86Context.Reset, h1, h2]
  · intro i h1
    simp [X86Context.Reset, h1]

/-- Closed instance of `reachable_esp_bound`: the context obtained by `Reset`
followed by `SmashCallerSaves` still has its ESP slot bound. -/
theorem reachable_esp_bound_w :
    (((X86Context.SmashCallerSaves
        (X86Context.Reset initContext)).gprs_ ESP).isSome = true) :=
  (reachable_esp_bound
    (X86Context.SmashCallerSaves (X86Context.Reset initContext)) initContext
    (Reachable.smash (X86Context.Reset initContext)
      (Reachable.reset initContext))).1
